import Mathlib

/-!
A verification development for the driver-log compliance pipeline
(`src/lib/violationDetector.ts` and the duration parser of `src/lib/pdfParser.ts`).

Modelling conventions:
* JS strings are `String`; case-insensitive comparisons go through ASCII lowering
  (`lowerStr`), matching `String.prototype.toLowerCase` on the ASCII data involved.
* JS numbers carrying odometer readings are modelled as exact rationals (`Rat`);
  `null` becomes `Option.none`.
* `durationMinutes` is a natural number (the source derives it from `parseInt` on
  digit strings, so it is a non-negative integer).
* The host functions `new Date(s).getTime()` (used only to order date strings) are
  abstracted as a valuation `dateVal : String → Int` passed to the engine;
  `String.prototype.localeCompare` is modelled as code-point lexicographic order
  (`strLe`), which agrees with it on the ASCII `HH:MM` data involved.
* `Math.random`-based violation ids and the `generatedAt` wall-clock timestamp are
  nondeterministic host values and are left out of the model; every other
  `Violation` and report field is modelled.  Number formatting (`toFixed`) inside
  description strings is rendered by a canonical rational printer `fmtRat`; no
  property proved here depends on the particular rendering.
* JS `Array.prototype.sort` (stable since ES2019) is modelled by the stable
  `List.insertionSort`.
-/

namespace DriveWise

/-- Severity levels of `Violation.severity` (`src/types/driverLog.ts`). -/
inductive Severity where
  | Critical
  | Major
  | Minor
deriving DecidableEq, Inhabited

/-- The 7 fixed violation categories (`src/types/driverLog.ts`). -/
inductive ViolationCategory where
  | OdometerJump
  | OdometerMismatchDateChange
  | LocationChangeWithoutDriving
  | StationaryWhileDriving
  | DrivingHoursExceeded
  | UnidentifiedDrivingEvent
  | NotesRemarksPresent
deriving DecidableEq, Inhabited

/-- The jurisdiction field of `ParsedLog` (`src/types/driverLog.ts`). -/
inductive Country where
  | USA
  | Canada
  | Unknown
deriving DecidableEq, Inhabited

/-- The source-format field of `ParsedLog` (`src/types/driverLog.ts`). -/
inductive LogFormat where
  | Motive
  | Samsara
  | Generic
deriving DecidableEq, Inhabited

/-- One duty-status line (`LogEntry` of `src/types/driverLog.ts`).  The `rawRow`
field (the original tokenized line, never read by the engine) is omitted. -/
structure LogEntry where
  date : String
  time : String
  status : String
  duration : String
  durationMinutes : Nat
  odometer : Option Rat
  location : String
  notes : String
  remarks : String
  comments : String
deriving DecidableEq, Inhabited

/-- One analyzed document (`ParsedLog` of `src/types/driverLog.ts`). -/
structure ParsedLog where
  driverName : String
  logDate : String
  country : Country
  format : LogFormat
  entries : List LogEntry
  unidentifiedEvents : List LogEntry
deriving DecidableEq, Inhabited

/-- The `details` bag of a `Violation` (`src/types/driverLog.ts`); fields the
source leaves `undefined` are `none`. -/
structure ViolationDetails where
  currentOdometer : Option Rat := none
  previousOdometer : Option Rat := none
  odometerDiff : Option Rat := none
  currentLocation : Option String := none
  previousLocation : Option String := none
  duration : Option String := none
  status : Option String := none
  totalDrivingHours : Option Rat := none
  allowedHours : Option Nat := none
  notes : Option String := none
deriving DecidableEq, Inhabited

/-- One detected anomaly (`Violation` of `src/types/driverLog.ts`).  The random
`id` is not modelled (see the header). -/
structure Violation where
  category : ViolationCategory
  severity : Severity
  date : String
  time : String
  description : String
  details : ViolationDetails
deriving DecidableEq, Inhabited

/-- Report summary (`AnalysisReport.summary` of `src/types/driverLog.ts`). -/
structure ReportSummary where
  totalEntries : Nat
  totalDrivingMinutes : Nat
  dateRangeStart : String
  dateRangeEnd : String
deriving DecidableEq

/-- The terminal artifact (`AnalysisReport` of `src/types/driverLog.ts`); the
wall-clock `generatedAt` is not modelled (see the header). -/
structure AnalysisReport where
  totalViolations : Nat
  violationsByCategory : ViolationCategory → Nat
  violations : List Violation
  parsedLogs : List ParsedLog
  summary : ReportSummary

/-- ASCII lowering of one character, modelling what `toLowerCase` does on the
ASCII status/keyword strings compared by the engine. -/
def lowerStr (s : String) : String :=
  String.mk (s.data.map Char.toLower)

/-- JS `String.prototype.trim`: drop whitespace from both ends. -/
def jsTrim (s : String) : String :=
  String.mk (((s.data.dropWhile Char.isWhitespace).reverse.dropWhile Char.isWhitespace).reverse)

/-- Rendering of a rational in descriptions (stands in for JS number printing /
`toFixed`; see the header). -/
def fmtRat (q : Rat) : String :=
  if q.den = 1 then toString q.num else toString q.num ++ "/" ++ toString q.den

/-! ### `parseDurationToMinutes` (src/lib/pdfParser.ts)

The three regexes are compiled by hand into scanners over the character list.
Each scanner returns the captures of the leftmost match, reproducing the JS
leftmost-match semantics of `String.prototype.match`; none of the three
patterns can backtrack into a different leftmost match (digit runs are maximal
and the characters demanded after them are never digits). -/

/-- Split a maximal leading digit run (`\d+`, greedy) from the rest. -/
def digitRun : List Char → List Char × List Char
  | [] => ([], [])
  | c :: cs =>
    if c.isDigit then
      let (r, rest) := digitRun cs
      (c :: r, rest)
    else ([], c :: cs)

/-- Numeric value of a digit run (`parseInt` on a decimal digit string). -/
def natOfDigits (l : List Char) : Nat :=
  l.foldl (fun n c => n * 10 + (c.toNat - 48)) 0

/-- Drop a maximal leading whitespace run (`\s*`, greedy). -/
def dropSpaces (l : List Char) : List Char :=
  l.dropWhile Char.isWhitespace

/-- Attempt `(\d+):(\d+)` at the head of the input; captures both groups. -/
def tryHHMMAt (l : List Char) : Option (Nat × Nat) :=
  let (d1, rest) := digitRun l
  if d1.isEmpty then none
  else
    match rest with
    | ':' :: rest2 =>
      let (d2, _) := digitRun rest2
      if d2.isEmpty then none else some (natOfDigits d1, natOfDigits d2)
    | _ => none

/-- Leftmost match of `/(\d+):(\d+)/`. -/
def findHHMM : List Char → Option (Nat × Nat)
  | [] => none
  | c :: cs =>
    match tryHHMMAt (c :: cs) with
    | some r => some r
    | none => findHHMM cs

/-- Consume the optional `(?:ours?)?` part after the `h`, greedily and
case-insensitively (as the regex engine does; nothing after it can fail, so the
greedy local choice is final). -/
def stripOurs (l : List Char) : List Char :=
  match l with
  | o :: u :: r :: rest =>
    if o.toLower = 'o' ∧ u.toLower = 'u' ∧ r.toLower = 'r' then
      match rest with
      | s :: rest2 => if s.toLower = 's' then rest2 else rest
      | [] => rest
    else l
  | _ => l

/-- Attempt `(\d+)\s*h(?:ours?)?\s*(\d+)?\s*m?` (case-insensitive) at the head
of the input; captures group 1 and the optional group 2. -/
def tryHoursAt (l : List Char) : Option (Nat × Option Nat) :=
  let (d1, rest) := digitRun l
  if d1.isEmpty then none
  else
    match dropSpaces rest with
    | c :: rest2 =>
      if c.toLower = 'h' then
        let (d2, _) := digitRun (dropSpaces (stripOurs rest2))
        some (natOfDigits d1, if d2.isEmpty then none else some (natOfDigits d2))
      else none
    | [] => none

/-- Leftmost match of `/(\d+)\s*h(?:ours?)?\s*(\d+)?\s*m?/i`. -/
def findHours : List Char → Option (Nat × Option Nat)
  | [] => none
  | c :: cs =>
    match tryHoursAt (c :: cs) with
    | some r => some r
    | none => findHours cs

/-- Attempt `(\d+)\s*(?:min|minutes?)` (case-insensitive) at the head of the
input (the `min` alternative, a prefix of the others, decides acceptance). -/
def tryMinAt (l : List Char) : Option Nat :=
  let (d1, rest) := digitRun l
  if d1.isEmpty then none
  else
    match dropSpaces rest with
    | m :: i :: n :: _ =>
      if m.toLower = 'm' ∧ i.toLower = 'i' ∧ n.toLower = 'n' then some (natOfDigits d1) else none
    | _ => none

/-- Leftmost match of `/(\d+)\s*(?:min|minutes?)/i`. -/
def findMin : List Char → Option Nat
  | [] => none
  | c :: cs =>
    match tryMinAt (c :: cs) with
    | some r => some r
    | none => findMin cs

/-- `parseDurationToMinutes` (src/lib/pdfParser.ts): `H:MM` first, else
`Nh Mm`, else `N min`, else 0.  `parseInt(hm[2]) || 0` is `Option.getD 0`. -/
def parseDurationToMinutes (duration : String) : Nat :=
  if duration = "" ∨ jsTrim duration = "" then 0
  else
    match findHHMM duration.data with
    | some (h, m) => h * 60 + m
    | none =>
      match findHours duration.data with
      | some (h, m2) => h * 60 + m2.getD 0
      | none =>
        match findMin duration.data with
        | some m => m
        | none => 0

/-! ### String ordering and sort keys (src/lib/violationDetector.ts, `analyzeDriverLogs`) -/

/-- Code-point lexicographic comparison of character lists (the model of
`localeCompare` on the ASCII data involved; see the header). -/
def listCharLe : List Char → List Char → Bool
  | [], _ => true
  | _ :: _, [] => false
  | a :: as, b :: bs =>
    if a.toNat < b.toNat then true
    else if b.toNat < a.toNat then false
    else listCharLe as bs

/-- Code-point lexicographic comparison of strings. -/
def strLe (a b : String) : Bool :=
  listCharLe a.data b.data

/-- The sort key of an entry: `a.time || '00:00'`. -/
def timeKey (e : LogEntry) : String :=
  if e.time = "" then "00:00" else e.time

/-- Comparator of the per-log entry sort: ascending `localeCompare` on the time
keys. -/
def entryLe (a b : LogEntry) : Prop :=
  strLe (timeKey a) (timeKey b) = true

instance : DecidableRel entryLe :=
  fun _ _ => inferInstanceAs (Decidable (_ = true))

/-- Comparator of the log sort: ascending `new Date(logDate).getTime()`, the
host date valuation being abstracted as `dateVal`. -/
def logLe (dateVal : String → Int) (a b : ParsedLog) : Prop :=
  dateVal a.logDate ≤ dateVal b.logDate

instance (dateVal : String → Int) : DecidableRel (logLe dateVal) :=
  fun _ _ => inferInstanceAs (Decidable (_ ≤ _))

/-- Comparator on date strings: ascending host date valuation (used for the
distinct-date sort of `checkOdometerAtDateChange` and for the report's date
range). -/
def dateStrLe (dateVal : String → Int) (a b : String) : Prop :=
  dateVal a ≤ dateVal b

instance (dateVal : String → Int) : DecidableRel (dateStrLe dateVal) :=
  fun _ _ => inferInstanceAs (Decidable (_ ≤ _))

/-! ### The seven rule checks (src/lib/violationDetector.ts) -/

/-- `findPreviousRowWithDuration`: walk indices `currentIndex - 1, …, 0` and
return the first entry whose `duration` is a truthy, non-whitespace string and
whose `durationMinutes` is positive. -/
def findPreviousRowWithDuration (entries : List LogEntry) : Nat → Option LogEntry
  | 0 => none
  | j + 1 =>
    match entries[j]? with
    | some e =>
      if e.duration ≠ "" ∧ jsTrim e.duration ≠ "" ∧ 0 < e.durationMinutes then some e
      else findPreviousRowWithDuration entries j
    | none => findPreviousRowWithDuration entries j

/-- The inner scan of `checkStationaryWhileDriving`: nearest preceding entry
with a non-null odometer, returning that odometer. -/
def findPreviousOdometer (entries : List LogEntry) : Nat → Option Rat
  | 0 => none
  | j + 1 =>
    match entries[j]? with
    | some e =>
      match e.odometer with
      | some o => some o
      | none => findPreviousOdometer entries j
    | none => findPreviousOdometer entries j

/-- Rendering of `Country` values inside description strings. -/
def countryStr : Country → String
  | Country.USA => "USA"
  | Country.Canada => "Canada"
  | Country.Unknown => "Unknown"

/-- Description text of an Odometer Jump violation. -/
def odometerJumpDescription (diff : Rat) (status : String) : String :=
  let d := fmtRat diff
  s!"Odometer increased by {d} miles but previous status was \"{status}\" (not Driving)"

/-- Loop body of `checkOdometerJump` at index `i` (the source loop starts at
index 1; `entries[prevWithDuration.index].odometer` is the reference entry's
own odometer, so the reference entry is consulted directly). -/
def odometerJumpStep (entries : List LogEntry) (i : Nat) : Option Violation :=
  if i = 0 then none
  else
    match entries[i]? with
    | none => none
    | some current =>
      match current.odometer with
      | none => none
      | some odo =>
        match findPreviousRowWithDuration entries i with
        | none => none
        | some prev =>
          match prev.odometer with
          | none => none
          | some podo =>
            if odo - podo ≠ 0 ∧ 0 < odo - podo then
              if lowerStr prev.status ≠ "driving" then
                some { category := ViolationCategory.OdometerJump
                       severity := if 50 < odo - podo then Severity.Critical else Severity.Major
                       date := current.date
                       time := current.time
                       description := odometerJumpDescription (odo - podo) prev.status
                       details := { currentOdometer := some odo
                                    previousOdometer := some podo
                                    odometerDiff := some (odo - podo)
                                    duration := some prev.duration
                                    status := some prev.status } }
              else none
            else none

/-- `checkOdometerJump` (src/lib/violationDetector.ts, lines 26-71). -/
def checkOdometerJump (entries : List LogEntry) : List Violation :=
  (List.range entries.length).filterMap (odometerJumpStep entries)

/-- Description text of a Location Change Without Driving violation. -/
def locationChangeDescription (fromLoc toLoc : String) : String :=
  s!"Location changed from \"{fromLoc}\" to \"{toLoc}\" without driving status"

/-- Loop body of `checkLocationChange` at index `i` (the source loop starts at
index 1). -/
def locationChangeStep (entries : List LogEntry) (i : Nat) : Option Violation :=
  if i = 0 then none
  else
    match entries[i]?, entries[i - 1]? with
    | some current, some previous =>
      if current.location = "" ∨ previous.location = "" then none
      else if lowerStr (jsTrim current.location) ≠ lowerStr (jsTrim previous.location) then
        match findPreviousRowWithDuration entries i with
        | some prev =>
          if lowerStr prev.status ≠ "driving" then
            some { category := ViolationCategory.LocationChangeWithoutDriving
                   severity := Severity.Major
                   date := current.date
                   time := current.time
                   description := locationChangeDescription previous.location current.location
                   details := { currentLocation := some current.location
                                previousLocation := some previous.location
                                status := some prev.status
                                duration := some prev.duration } }
          else none
        | none => none
      else none
    | _, _ => none

/-- `checkLocationChange` (src/lib/violationDetector.ts, lines 78-115). -/
def checkLocationChange (entries : List LogEntry) : List Violation :=
  (List.range entries.length).filterMap (locationChangeStep entries)

/-- Description text of a Stationary While Driving violation. -/
def stationaryDescription (duration : String) (durationMinutes : Nat) (odo : Rat) : String :=
  let m := toString durationMinutes
  let o := fmtRat odo
  s!"Status is \"Driving\" for {duration} ({m} min) but odometer unchanged at {o}"

/-- Loop body of `checkStationaryWhileDriving` at index `i`. -/
def stationaryStep (entries : List LogEntry) (i : Nat) : Option Violation :=
  match entries[i]? with
  | none => none
  | some entry =>
    if lowerStr entry.status = "driving" ∧ 10 ≤ entry.durationMinutes then
      match findPreviousOdometer entries i, entry.odometer with
      | some podo, some odo =>
        if odo = podo then
          some { category := ViolationCategory.StationaryWhileDriving
                 severity := Severity.Major
                 date := entry.date
                 time := entry.time
                 description := stationaryDescription entry.duration entry.durationMinutes odo
                 details := { currentOdometer := some odo
                              duration := some entry.duration
                              status := some entry.status } }
        else none
      | _, _ => none
    else none

/-- `checkStationaryWhileDriving` (src/lib/violationDetector.ts, lines 123-160). -/
def checkStationaryWhileDriving (entries : List LogEntry) : List Violation :=
  (List.range entries.length).filterMap (stationaryStep entries)

/-- Distinct values of a key list in first-occurrence order: the enumeration
order of the plain-object groupings in the source (`entriesByDate`,
`dateOdometers`), whose date-string keys are added on first sight. -/
def firstOccurrences : List String → List String
  | [] => []
  | d :: ds => d :: (firstOccurrences ds).filter (fun x => x != d)

/-- The distinct entry dates in first-occurrence order. -/
def datesFirstOccurrence (entries : List LogEntry) : List String :=
  firstOccurrences (entries.map (fun e => e.date))

/-- Summed `durationMinutes` of the entries of date `d` whose status is
"driving" (the per-bucket sum of `checkDrivingHoursExceeded`; the bucket of
`d` holds exactly the entries with `date = d`, in order). -/
def sumDrivingMinutesOnDate (entries : List LogEntry) (d : String) : Nat :=
  ((entries.filter (fun e => e.date = d ∧ lowerStr e.status = "driving")).map
    (fun e => e.durationMinutes)).sum

/-- Description text of a Driving Hours Exceeded violation. -/
def drivingHoursDescription (totalMinutes : Nat) (maxHours : Nat) (c : Country) : String :=
  let h := fmtRat ((totalMinutes : Rat) / 60)
  let m := toString totalMinutes
  let mx := toString maxHours
  let co := countryStr c
  s!"Total driving time {h} hours ({m} min) exceeds {mx} hour limit for {co}"

/-- The per-day limit in hours: 13 for Canada, 11 otherwise (`maxHours`). -/
def maxDrivingHours (log : ParsedLog) : Nat :=
  if log.country = Country.Canada then 13 else 11

/-- The Critical violation emitted for an offending date `d`. -/
def drivingHoursViolation (log : ParsedLog) (d : String) : Violation :=
  let total := sumDrivingMinutesOnDate log.entries d
  { category := ViolationCategory.DrivingHoursExceeded
    severity := Severity.Critical
    date := d
    time := ""
    description := drivingHoursDescription total (maxDrivingHours log) log.country
    details := { totalDrivingHours := some ((total : Rat) / 60)
                 allowedHours := some (maxDrivingHours log) } }

/-- `checkDrivingHoursExceeded` (src/lib/violationDetector.ts, lines 168-210):
one candidate per distinct date, firing on a summed driving time strictly above
`maxMinutes = maxHours * 60`. -/
def checkDrivingHoursExceeded (log : ParsedLog) : List Violation :=
  (datesFirstOccurrence log.entries).filterMap fun d =>
    if maxDrivingHours log * 60 < sumDrivingMinutesOnDate log.entries d then
      some (drivingHoursViolation log d)
    else none

/-- First entry of date `d` with a non-null odometer: carries the
`firstOdometer`/`firstTime` data of the `dateOdometers` record. -/
def firstOdoEntry (entries : List LogEntry) (d : String) : Option LogEntry :=
  entries.find? (fun e => e.date = d ∧ e.odometer.isSome)

/-- Last entry of date `d` with a non-null odometer: carries the
`lastOdometer`/`lastTime` data of the `dateOdometers` record. -/
def lastOdoEntry (entries : List LogEntry) (d : String) : Option LogEntry :=
  entries.reverse.find? (fun e => e.date = d ∧ e.odometer.isSome)

/-- Description text of an Odometer Mismatch (Date Change) violation. -/
def dateChangeDescription (diff : Rat) (prevDate : String) (prevOdo : Rat)
    (currDate : String) (currOdo : Rat) : String :=
  let d := fmtRat diff
  let p := fmtRat prevOdo
  let c := fmtRat currOdo
  s!"Odometer differs by {d} miles between end of {prevDate} ({p}) and start of {currDate} ({c})"

/-- The distinct entry dates, stably sorted ascending by the host date
valuation (the `sortedDates` of `checkOdometerAtDateChange`). -/
def sortedDatesOf (dateVal : String → Int) (entries : List LogEntry) : List String :=
  List.insertionSort (dateStrLe dateVal) (datesFirstOccurrence entries)

/-- Loop body of `checkOdometerAtDateChange` on one consecutive date pair. -/
def dateChangeStep (entries : List LogEntry) (pair : String × String) : Option Violation :=
  match lastOdoEntry entries pair.1, firstOdoEntry entries pair.2 with
  | some pe, some ce =>
    match pe.odometer, ce.odometer with
    | some prevLast, some currFirst =>
      if currFirst - prevLast ≠ 0 then
        some { category := ViolationCategory.OdometerMismatchDateChange
               severity := Severity.Major
               date := pair.2
               time := ce.time
               description := dateChangeDescription (currFirst - prevLast) pair.1 prevLast pair.2 currFirst
               details := { currentOdometer := some currFirst
                            previousOdometer := some prevLast
                            odometerDiff := some (currFirst - prevLast) } }
      else none
    | _, _ => none
  | _, _ => none

/-- `checkOdometerAtDateChange` (src/lib/violationDetector.ts, lines 218-272):
sort the distinct dates by the host date valuation (stably, from
first-occurrence order) and compare the last reading of each date with the
first reading of the next. -/
def checkOdometerAtDateChange (dateVal : String → Int) (entries : List LogEntry) : List Violation :=
  let sortedDates := sortedDatesOf dateVal entries
  (sortedDates.zip sortedDates.tail).filterMap (dateChangeStep entries)

/-- Description text of an Unidentified Driving Event violation. -/
def unidentifiedDescription (duration location : String) : String :=
  let loc := if location = "" then "Unknown" else location
  s!"Unidentified driving event detected - Duration: {duration}, Location: {loc}"

/-- `checkUnidentifiedDrivingEvents` (src/lib/violationDetector.ts,
lines 279-304). -/
def checkUnidentifiedDrivingEvents (log : ParsedLog) : List Violation :=
  if log.format = LogFormat.Motive ∧ 0 < log.unidentifiedEvents.length then
    log.unidentifiedEvents.filterMap fun event =>
      if lowerStr event.status = "driving" then
        some { category := ViolationCategory.UnidentifiedDrivingEvent
               severity := Severity.Critical
               date := if event.date = "" then log.logDate else event.date
               time := event.time
               description := unidentifiedDescription event.duration event.location
               details := { currentOdometer := event.odometer
                            duration := some event.duration
                            currentLocation := some event.location
                            status := some "Unidentified Driving" } }
      else none
  else []

/-- The concatenated note text of an entry: the non-empty ones among trimmed
`notes`, `remarks`, `comments`, joined by " | ". -/
def allNotesOf (e : LogEntry) : String :=
  String.intercalate " | "
    (([jsTrim e.notes, jsTrim e.remarks, jsTrim e.comments]).filter (fun n => n ≠ ""))

/-- `checkNotesAndRemarks` (src/lib/violationDetector.ts, lines 311-341). -/
def checkNotesAndRemarks (entries : List LogEntry) : List Violation :=
  entries.filterMap fun entry =>
    if allNotesOf entry ≠ "" then
      some { category := ViolationCategory.NotesRemarksPresent
             severity := Severity.Minor
             date := entry.date
             time := entry.time
             description := "Entry has notes/remarks that need review"
             details := { notes := some (allNotesOf entry)
                          status := some entry.status
                          duration := some entry.duration
                          currentOdometer := entry.odometer
                          currentLocation := some entry.location } }
    else none

/-! ### `analyzeDriverLogs` (src/lib/violationDetector.ts, lines 350-422) -/

/-- Sort one log's entries ascending by time key (the in-place
`log.entries.sort`). -/
def sortEntriesOfLog (log : ParsedLog) : ParsedLog :=
  { log with entries := List.insertionSort entryLe log.entries }

/-- The preprocessing of `analyzeDriverLogs`: sort logs ascending by the date
valuation of `logDate`, then sort each log's entries by time key. -/
def preprocessLogs (dateVal : String → Int) (logs : List ParsedLog) : List ParsedLog :=
  (List.insertionSort (logLe dateVal) logs).map sortEntriesOfLog

/-- The seven checks of one (already sorted) log, in source order. -/
def runChecks (dateVal : String → Int) (log : ParsedLog) : List Violation :=
  checkOdometerJump log.entries ++
    checkLocationChange log.entries ++
    checkStationaryWhileDriving log.entries ++
    checkDrivingHoursExceeded log ++
    checkOdometerAtDateChange dateVal log.entries ++
    checkUnidentifiedDrivingEvents log ++
    checkNotesAndRemarks log.entries

/-- The category-count map, built by incrementing each violation's own key over
an all-zero initial map. -/
def countByCategory (vs : List Violation) : ViolationCategory → Nat :=
  vs.foldl (fun acc v => fun c => if c = v.category then acc c + 1 else acc c) (fun _ => 0)

/-- JS `x || 'Unknown'` on an optional array element. -/
def orUnknown : Option String → String
  | some s => if s = "" then "Unknown" else s
  | none => "Unknown"

/-- Build the report from the already-preprocessed logs (everything after the
sorting in `analyzeDriverLogs`). -/
def buildReport (dateVal : String → Int) (sortedLogs : List ParsedLog) : AnalysisReport :=
  let allViolations := (sortedLogs.map (runChecks dateVal)).flatten
  let dates := List.insertionSort (dateStrLe dateVal)
    (sortedLogs.map (fun log => log.logDate))
  { totalViolations := allViolations.length
    violationsByCategory := countByCategory allViolations
    violations := allViolations
    parsedLogs := sortedLogs
    summary :=
      { totalEntries := (sortedLogs.map (fun log => log.entries.length)).sum
        totalDrivingMinutes :=
          (sortedLogs.map (fun log =>
            ((log.entries.filter (fun e => lowerStr e.status = "driving")).map
              (fun e => e.durationMinutes)).sum)).sum
        dateRangeStart := orUnknown dates.head?
        dateRangeEnd := orUnknown dates.getLast? } }

/-- `analyzeDriverLogs`: preprocess (sort logs, sort entries), run the checks
in order, aggregate. -/
def analyzeDriverLogs (dateVal : String → Int) (logs : List ParsedLog) : AnalysisReport :=
  buildReport dateVal (preprocessLogs dateVal logs)

/-! ### Claim-side transcriptions

The predicates and constructors below transcribe the spec's wording of the
per-entry firing conditions; the theorems relate them to the check functions
above. -/

/-- Spec condition for an Odometer Jump at index `i`: the entry's odometer is
present, the reference entry (nearest preceding entry with a non-empty duration
and positive `durationMinutes`) exists with a present odometer, the odometer
delta is strictly positive, and the reference status is not "driving". -/
def odometerJumpFires (entries : List LogEntry) (i : Nat) : Bool :=
  match entries[i]? with
  | none => false
  | some current =>
    match current.odometer with
    | none => false
    | some odo =>
      match findPreviousRowWithDuration entries i with
      | none => false
      | some prev =>
        match prev.odometer with
        | none => false
        | some podo =>
          decide (0 < odo - podo) && decide (lowerStr prev.status ≠ "driving")

/-- The violation the spec promises for an Odometer Jump at index `i`:
Critical exactly when the delta strictly exceeds 50, else Major. -/
def mkOdometerJumpViolation (entries : List LogEntry) (i : Nat) : Violation :=
  let current := (entries[i]?).getD default
  let prev := (findPreviousRowWithDuration entries i).getD default
  let odo := current.odometer.getD 0
  let podo := prev.odometer.getD 0
  { category := ViolationCategory.OdometerJump
    severity := if 50 < odo - podo then Severity.Critical else Severity.Major
    date := current.date
    time := current.time
    description := odometerJumpDescription (odo - podo) prev.status
    details := { currentOdometer := some odo
                 previousOdometer := some podo
                 odometerDiff := some (odo - podo)
                 duration := some prev.duration
                 status := some prev.status } }

/-- Spec condition for Stationary While Driving at index `i`: status "driving",
`durationMinutes ≥ 10`, own odometer present, and the nearest preceding entry
with a present odometer exists and reads the same. -/
def stationaryFires (entries : List LogEntry) (i : Nat) : Bool :=
  match entries[i]? with
  | none => false
  | some entry =>
    decide (lowerStr entry.status = "driving") && decide (10 ≤ entry.durationMinutes) &&
      match findPreviousOdometer entries i, entry.odometer with
      | some podo, some odo => decide (odo = podo)
      | _, _ => false

/-- The Major violation the spec promises for Stationary While Driving. -/
def mkStationaryViolation (entries : List LogEntry) (i : Nat) : Violation :=
  let entry := (entries[i]?).getD default
  let odo := entry.odometer.getD 0
  { category := ViolationCategory.StationaryWhileDriving
    severity := Severity.Major
    date := entry.date
    time := entry.time
    description := stationaryDescription entry.duration entry.durationMinutes odo
    details := { currentOdometer := some odo
                 duration := some entry.duration
                 status := some entry.status } }

/-- The last present odometer reading of date `d`. -/
def lastReading (entries : List LogEntry) (d : String) : Option Rat :=
  (lastOdoEntry entries d).bind (fun e => e.odometer)

/-- The first present odometer reading of date `d`. -/
def firstReading (entries : List LogEntry) (d : String) : Option Rat :=
  (firstOdoEntry entries d).bind (fun e => e.odometer)

/-- The time of the first present odometer reading of date `d`. -/
def firstReadingTime (entries : List LogEntry) (d : String) : String :=
  ((firstOdoEntry entries d).getD default).time

/-- Spec condition for an Odometer Mismatch on a consecutive date pair: both
the previous date's last reading and the current date's first reading exist
and differ. -/
def dateChangeFires (entries : List LogEntry) (pair : String × String) : Bool :=
  match lastReading entries pair.1, firstReading entries pair.2 with
  | some lp, some fc => decide (lp ≠ fc)
  | _, _ => false

/-- The Major violation the spec promises for an Odometer Mismatch: dated on
the later date, timed at that date's first reading's time. -/
def mkDateChangeViolation (entries : List LogEntry) (pair : String × String) : Violation :=
  let lp := (lastReading entries pair.1).getD 0
  let fc := (firstReading entries pair.2).getD 0
  { category := ViolationCategory.OdometerMismatchDateChange
    severity := Severity.Major
    date := pair.2
    time := firstReadingTime entries pair.2
    description := dateChangeDescription (fc - lp) pair.1 lp pair.2 fc
    details := { currentOdometer := some fc
                 previousOdometer := some lp
                 odometerDiff := some (fc - lp) } }

/-- Spec thresholds: 780 driving minutes (13 h) for Canada, 660 (11 h)
otherwise. -/
def drivingLimitMinutes (c : Country) : Nat :=
  if c = Country.Canada then 780 else 660

/-- The 7 fixed categories as a list (the key set of `violationsByCategory`). -/
def allCategories : List ViolationCategory :=
  [ViolationCategory.OdometerJump, ViolationCategory.OdometerMismatchDateChange,
    ViolationCategory.LocationChangeWithoutDriving, ViolationCategory.StationaryWhileDriving,
    ViolationCategory.DrivingHoursExceeded, ViolationCategory.UnidentifiedDrivingEvent,
    ViolationCategory.NotesRemarksPresent]

/-! ### Concrete inputs for the closed scenarios -/

/-- A blank entry from which the concrete test entries are built. -/
def baseEntry : LogEntry :=
  { date := "", time := "", status := "", duration := "", durationMinutes := 0,
    odometer := none, location := "", notes := "", remarks := "", comments := "" }

/-- Scenario (odometer jump): an "Off Duty" entry carrying a 15-minute
duration and no odometer. -/
def scenarioEntry0 : LogEntry :=
  { baseEntry with date := "1/1/2024", time := "08:00", status := "Off Duty",
                   duration := "0:15", durationMinutes := 15 }

/-- Scenario (odometer jump): "Off Duty" at odometer 100, with a 15-minute
duration. -/
def scenarioEntry1 : LogEntry :=
  { baseEntry with date := "1/1/2024", time := "09:00", status := "Off Duty",
                   duration := "0:15", durationMinutes := 15, odometer := some 100 }

/-- Scenario (odometer jump): "Off Duty" at odometer 150, no duration. -/
def scenarioEntry2 : LogEntry :=
  { baseEntry with date := "1/1/2024", time := "10:00", status := "Off Duty",
                   odometer := some 150 }

/-- The scenario entry sequence of C2. -/
def scenarioEntries : List LogEntry :=
  [scenarioEntry0, scenarioEntry1, scenarioEntry2]

/-- The single violation the odometer-jump scenario must produce: Major (the
delta 50 is not strictly above 50), with `odometerDiff` 50. -/
def scenarioJumpViolation : Violation :=
  { category := ViolationCategory.OdometerJump
    severity := Severity.Major
    date := "1/1/2024"
    time := "10:00"
    description := odometerJumpDescription 50 "Off Duty"
    details := { currentOdometer := some 150
                 previousOdometer := some 100
                 odometerDiff := some 50
                 duration := some "0:15"
                 status := some "Off Duty" } }

/-- A log whose two entries carry times "00:00" and "" (in this order): after
sorting, the empty-time entry is still second. -/
def emptyTimeLog : ParsedLog :=
  { driverName := "Unknown Driver", logDate := "1/1/2024", country := Country.USA,
    format := LogFormat.Generic,
    entries := [{ baseEntry with time := "00:00" }, { baseEntry with time := "" }],
    unidentifiedEvents := [] }

/-- A one-entry log whose entry carries a note. -/
def notesLog : ParsedLog :=
  { driverName := "Unknown Driver", logDate := "1/1/2024", country := Country.USA,
    format := LogFormat.Generic,
    entries := [{ baseEntry with date := "1/1/2024", notes := "x" }],
    unidentifiedEvents := [] }

/-- The Minor notes violation that `notesLog` produces. -/
def notesViolation : Violation :=
  { category := ViolationCategory.NotesRemarksPresent
    severity := Severity.Minor
    date := "1/1/2024"
    time := ""
    description := "Entry has notes/remarks that need review"
    details := { notes := some "x"
                 status := some ""
                 duration := some ""
                 currentOdometer := none
                 currentLocation := some "" } }

/-! ### Helper lemmas -/

/-- A `filterMap` whose function is an if-then-some-else-none is the `map` of
the `filter`. -/
theorem filterMap_eq_filter_map {α β : Type} (f : α → Option β) (p : α → Bool) (g : α → β)
    (l : List α) (h : ∀ a ∈ l, f a = if p a then some (g a) else none) :
    l.filterMap f = (l.filter p).map g := by
  induction l with
  | nil => rfl
  | cons a l ih =>
    have ha := h a (List.mem_cons_self a l)
    have ih2 := ih (fun x hx => h x (List.mem_cons_of_mem a hx))
    rw [List.filterMap_cons, List.filter_cons, ha]
    by_cases hp : p a = true
    · simp [hp, ih2]
    · simp [hp, ih2]

/-- The loop body of `checkOdometerJump` fires exactly under the spec's
condition, producing the spec's violation. -/
theorem odometerJumpStep_eq (entries : List LogEntry) (i : Nat) :
    odometerJumpStep entries i =
      if odometerJumpFires entries i = true then some (mkOdometerJumpViolation entries i)
      else none := by
  unfold odometerJumpStep odometerJumpFires mkOdometerJumpViolation
  by_cases h0 : i = 0
  · subst h0
    simp only [if_pos rfl]
    cases hc : entries[0]? with
    | none => simp [hc]
    | some current =>
      cases ho : current.odometer with
      | none => simp [hc, ho]
      | some odo => simp [hc, ho, findPreviousRowWithDuration]
  · simp only [if_neg h0]
    cases hc : entries[i]? with
    | none => simp [hc]
    | some current =>
      cases ho : current.odometer with
      | none => simp [hc, ho]
      | some odo =>
        cases hp : findPreviousRowWithDuration entries i with
        | none => simp [hc, ho, hp]
        | some prev =>
          cases hpo : prev.odometer with
          | none => simp [hc, ho, hp, hpo]
          | some podo =>
            simp only [hc, ho, hp, hpo, Option.getD_some]
            by_cases hlt : 0 < odo - podo
            · by_cases hst : lowerStr prev.status ≠ "driving"
              · have hne : odo - podo ≠ 0 := ne_of_gt hlt
                simp [hlt, hst, hne]
              · simp [hlt, hst]
            · simp [hlt]

/-- The loop body of `checkStationaryWhileDriving` fires exactly under the
spec's condition, producing the spec's violation. -/
theorem stationaryStep_eq (entries : List LogEntry) (i : Nat) :
    stationaryStep entries i =
      if stationaryFires entries i = true then some (mkStationaryViolation entries i)
      else none := by
  unfold stationaryStep stationaryFires mkStationaryViolation
  cases hc : entries[i]? with
  | none => simp [hc]
  | some entry =>
    by_cases h1 : lowerStr entry.status = "driving"
    · by_cases h2 : 10 ≤ entry.durationMinutes
      · cases hp : findPreviousOdometer entries i with
        | none =>
          cases ho : entry.odometer with
          | none => simp [hc, hp, ho, h1, h2]
          | some odo => simp [hc, hp, ho, h1, h2]
        | some podo =>
          cases ho : entry.odometer with
          | none => simp [hc, hp, ho, h1, h2]
          | some odo =>
            simp only [hc, hp, ho, h1, h2, Option.getD_some, if_pos (And.intro h1 h2)]
            by_cases heq : odo = podo
            · simp [heq, h1, h2]
            · simp [heq, h1, h2]
      · simp [hc, h1, h2]
    · simp [hc, h1]

/-- The loop body of `checkOdometerAtDateChange` fires exactly under the
spec's condition, producing the spec's violation. -/
theorem dateChangeStep_eq (entries : List LogEntry) (pair : String × String) :
    dateChangeStep entries pair =
      if dateChangeFires entries pair = true then some (mkDateChangeViolation entries pair)
      else none := by
  unfold dateChangeStep dateChangeFires mkDateChangeViolation lastReading firstReading
    firstReadingTime
  cases hl : lastOdoEntry entries pair.1 with
  | none =>
    cases hf : firstOdoEntry entries pair.2 with
    | none => simp [hl, hf]
    | some ce => simp [hl, hf]
  | some pe =>
    cases hf : firstOdoEntry entries pair.2 with
    | none => simp [hl, hf]
    | some ce =>
      cases hpo : pe.odometer with
      | none =>
        cases hco : ce.odometer with
        | none => simp [hl, hf, hpo, hco]
        | some fc => simp [hl, hf, hpo, hco]
      | some lp =>
        cases hco : ce.odometer with
        | none => simp [hl, hf, hpo, hco]
        | some fc =>
          simp only [hl, hf, hpo, hco, Option.some_bind, Option.getD_some]
          by_cases hne : lp ≠ fc
          · have hz : fc - lp ≠ 0 := sub_ne_zero.mpr (Ne.symm hne)
            simp [hne, hz]
          · rw [not_ne_iff] at hne
            have hz : fc - lp = 0 := by rw [hne, sub_self]
            simp [hne, hz]

/-- Each string occurs in `firstOccurrences l` once if it occurs in `l`, else
not at all. -/
theorem count_firstOccurrences (l : List String) (d : String) :
    (firstOccurrences l).count d = if d ∈ l then 1 else 0 := by
  induction l with
  | nil => simp [firstOccurrences]
  | cons e es ih =>
    unfold firstOccurrences
    by_cases hde : d = e
    · subst hde
      rw [List.count_cons_self]
      have h0 : ((firstOccurrences es).filter (fun x => x != d)).count d = 0 := by
        rw [List.count_eq_zero]
        intro hm
        have h2 := List.of_mem_filter hm
        simp at h2
      rw [h0]
      simp
    · rw [List.count_cons_of_ne hde]
      have hcf : ((firstOccurrences es).filter (fun x => x != e)).count d
          = (firstOccurrences es).count d := by
        rw [List.count_filter]
        simp [hde]
      rw [hcf, ih]
      simp [hde]

/-- Count of the date-`d` violations of a per-date if-then-some filterMap. -/
theorem hours_count_lemma (P : String → Prop) [DecidablePred P] (mk : String → Violation)
    (hmk : ∀ d, (mk d).date = d) (L : List String) (d : String) :
    ((L.filterMap (fun x => if P x then some (mk x) else none)).filter
        (fun v => v.date = d)).length
      = if P d then L.count d else 0 := by
  induction L with
  | nil => simp
  | cons x xs ih =>
    rw [List.filterMap_cons]
    by_cases hPx : P x
    · rw [if_pos hPx, List.filter_cons]
      by_cases hxd : x = d
      · subst hxd
        rw [if_pos (by simp [hmk]), List.length_cons, ih, List.count_cons_self]
        simp [hPx]
      · rw [if_neg (by simp [hmk, hxd]), ih,
          List.count_cons_of_ne (fun h => hxd h.symm)]
    · rw [if_neg hPx]
      by_cases hxd : x = d
      · subst hxd
        rw [ih]
        simp [hPx]
      · rw [ih, List.count_cons_of_ne (fun h => hxd h.symm)]

/-! ### Claim theorems -/

/-- Claim C1: `checkDrivingHoursExceeded` groups entries by date string, sums
driving `durationMinutes` per date, and emits exactly one violation per date
whose sum strictly exceeds 780 minutes (Canada) or 660 minutes (otherwise);
a sum at or below the threshold never fires, and every emitted violation is
Critical, carries the offending date, and has an empty time. -/
theorem checkDrivingHoursExceeded_spec (log : ParsedLog) (d : String) :
    (((checkDrivingHoursExceeded log).filter (fun v => v.date = d)).length
        = if d ∈ log.entries.map (fun e => e.date)
              ∧ drivingLimitMinutes log.country < sumDrivingMinutesOnDate log.entries d
          then 1 else 0)
      ∧ (∀ v ∈ checkDrivingHoursExceeded log,
          v.category = ViolationCategory.DrivingHoursExceeded ∧ v.severity = Severity.Critical
            ∧ v.time = "") := by
  have hlim : maxDrivingHours log * 60 = drivingLimitMinutes log.country := by
    unfold maxDrivingHours drivingLimitMinutes
    cases hc : log.country <;> simp
  constructor
  · have hcount := hours_count_lemma
      (fun x => maxDrivingHours log * 60 < sumDrivingMinutesOnDate log.entries x)
      (drivingHoursViolation log) (fun _ => rfl) (datesFirstOccurrence log.entries) d
    rw [checkDrivingHoursExceeded, hcount, hlim]
    unfold datesFirstOccurrence
    rw [count_firstOccurrences]
    by_cases h1 : d ∈ log.entries.map (fun e => e.date) <;>
      by_cases h2 : drivingLimitMinutes log.country < sumDrivingMinutesOnDate log.entries d <;>
        simp [h1, h2]
  · intro v hv
    rw [checkDrivingHoursExceeded] at hv
    simp only [List.mem_filterMap] at hv
    obtain ⟨x, _, hx⟩ := hv
    by_cases hP : maxDrivingHours log * 60 < sumDrivingMinutesOnDate log.entries x
    · rw [if_pos hP] at hx
      obtain rfl := Option.some.inj hx
      exact ⟨rfl, rfl, rfl⟩
    · rw [if_neg hP] at hx
      exact absurd hx (by simp)

/-- Claim C2: `checkOdometerJump` emits a violation at an entry exactly when
its odometer is present, the reference entry (nearest preceding entry with a
non-empty duration and positive `durationMinutes`) exists with a present
odometer, the delta is strictly positive, and the reference status is not
"driving" (case-insensitive); severity is Critical for a delta strictly above
50 and Major otherwise.  The Off-Duty 100-then-150 scenario after an Off-Duty
15-minute reference entry yields exactly one Major violation with
`odometerDiff` 50. -/
theorem checkOdometerJump_spec :
    (∀ entries : List LogEntry,
        checkOdometerJump entries =
          ((List.range entries.length).filter (odometerJumpFires entries)).map
            (mkOdometerJumpViolation entries))
      ∧ checkOdometerJump scenarioEntries = [scenarioJumpViolation] := by
  constructor
  · intro entries
    exact filterMap_eq_filter_map _ _ _ _ (fun i _ => odometerJumpStep_eq entries i)
  · have h0 : odometerJumpStep scenarioEntries 0 = none := by decide
    have h1 : odometerJumpStep scenarioEntries 1 = none := by decide
    have h2 : odometerJumpStep scenarioEntries 2 = some scenarioJumpViolation := by
      have hg : scenarioEntries[2]? = some scenarioEntry2 := by decide
      have hf : findPreviousRowWithDuration scenarioEntries 2 = some scenarioEntry1 := by decide
      have ho : scenarioEntry2.odometer = some 150 := by decide
      have hpo : scenarioEntry1.odometer = some 100 := by decide
      have hd : (150 : Rat) - 100 = 50 := by norm_num
      unfold odometerJumpStep
      rw [if_neg (by decide : ¬ ((2 : Nat) = 0))]
      simp only [hg, hf, ho, hpo, hd]
      rw [if_pos ⟨by norm_num, by norm_num⟩]
      rw [if_pos (by decide : lowerStr scenarioEntry1.status ≠ "driving")]
      decide
    unfold checkOdometerJump
    rw [show List.range scenarioEntries.length = [0, 1, 2] from rfl]
    simp [List.filterMap_cons, h0, h1, h2]

/-- Claim C4: `checkStationaryWhileDriving` fires exactly on entries with
status "driving" (case-insensitive), `durationMinutes ≥ 10`, a present
odometer, and a nearest preceding present odometer equal to it; in particular
it never fires when the entry's own odometer is absent or `durationMinutes`
is below 10, and every violation it emits is Major. -/
theorem checkStationaryWhileDriving_spec :
    (∀ entries : List LogEntry,
        checkStationaryWhileDriving entries =
          ((List.range entries.length).filter (stationaryFires entries)).map
            (mkStationaryViolation entries))
      ∧ (∀ entries : List LogEntry, ∀ i : Nat, stationaryFires entries i = true →
          ∃ entry, entries[i]? = some entry ∧ entry.odometer.isSome = true
            ∧ 10 ≤ entry.durationMinutes ∧ lowerStr entry.status = "driving")
      ∧ (∀ entries : List LogEntry, ∀ v ∈ checkStationaryWhileDriving entries,
          v.severity = Severity.Major ∧ v.category = ViolationCategory.StationaryWhileDriving) := by
  have hmain : ∀ entries : List LogEntry,
      checkStationaryWhileDriving entries =
        ((List.range entries.length).filter (stationaryFires entries)).map
          (mkStationaryViolation entries) := by
    intro entries
    exact filterMap_eq_filter_map _ _ _ _ (fun i _ => stationaryStep_eq entries i)
  refine ⟨hmain, ?_, ?_⟩
  · intro entries i h
    unfold stationaryFires at h
    revert h
    cases hc : entries[i]? with
    | none => intro h; exact absurd h (by simp)
    | some entry =>
      intro h
      simp only [Bool.and_eq_true, decide_eq_true_eq] at h
      obtain ⟨⟨hst, hdm⟩, hm⟩ := h
      refine ⟨entry, rfl, ?_, hdm, hst⟩
      revert hm
      cases hp : findPreviousOdometer entries i <;> cases ho : entry.odometer <;>
        intro hm <;> simp_all
  · intro entries v hv
    rw [hmain entries] at hv
    simp only [List.mem_map] at hv
    obtain ⟨i, _, rfl⟩ := hv
    exact ⟨rfl, rfl⟩

/-- Claim C7: `checkOdometerAtDateChange` sorts the distinct entry dates
ascending by the (host) calendar-date valuation and, for each consecutive pair
of those dates, emits one Major violation exactly when the previous date's
last present odometer reading differs from the current date's first reading,
dating the violation on the later date and timing it at that date's first
reading's time. -/
theorem checkOdometerAtDateChange_spec (dateVal : String → Int) (entries : List LogEntry) :
    (checkOdometerAtDateChange dateVal entries =
        (((sortedDatesOf dateVal entries).zip (sortedDatesOf dateVal entries).tail).filter
            (dateChangeFires entries)).map (mkDateChangeViolation entries))
      ∧ List.Sorted (dateStrLe dateVal) (sortedDatesOf dateVal entries)
      ∧ (sortedDatesOf dateVal entries).Perm (datesFirstOccurrence entries) := by
  refine ⟨?_, ?_, ?_⟩
  · unfold checkOdometerAtDateChange
    exact filterMap_eq_filter_map _ _ _ _ (fun a _ => dateChangeStep_eq entries a)
  · haveI : IsTotal String (dateStrLe dateVal) := ⟨fun a b => Int.le_total _ _⟩
    haveI : IsTrans String (dateStrLe dateVal) := ⟨fun _ _ _ => Int.le_trans⟩
    exact List.sorted_insertionSort _ _
  · exact List.perm_insertionSort _ _

/-- Totality of the code-point comparison. -/
theorem listCharLe_total : ∀ a b : List Char, listCharLe a b = true ∨ listCharLe b a = true
  | [], _ => Or.inl rfl
  | _ :: _, [] => Or.inr rfl
  | a :: as, b :: bs => by
    rcases Nat.lt_trichotomy a.toNat b.toNat with h | h | h
    · left
      unfold listCharLe
      simp [h]
    · rcases listCharLe_total as bs with ih | ih
      · left
        unfold listCharLe
        simp [h, ih]
      · right
        unfold listCharLe
        simp [h.symm, ih]
    · right
      unfold listCharLe
      simp [h]

/-- Transitivity of the code-point comparison. -/
theorem listCharLe_trans : ∀ a b c : List Char,
    listCharLe a b = true → listCharLe b c = true → listCharLe a c = true
  | [], _, _, _, _ => rfl
  | _ :: _, [], _, h1, _ => by simp [listCharLe] at h1
  | _ :: _, _ :: _, [], _, h2 => by simp [listCharLe] at h2
  | a :: as, b :: bs, c :: cs, h1, h2 => by
    unfold listCharLe at h1 h2 ⊢
    rcases Nat.lt_trichotomy a.toNat b.toNat with hab | hab | hab
    · rcases Nat.lt_trichotomy b.toNat c.toNat with hbc | hbc | hbc
      · simp [show a.toNat < c.toNat from Nat.lt_trans hab hbc]
      · simp [show a.toNat < c.toNat from hbc ▸ hab]
      · simp [show ¬ (b.toNat < c.toNat) from by omega, hbc] at h2
    · rcases Nat.lt_trichotomy b.toNat c.toNat with hbc | hbc | hbc
      · simp [show a.toNat < c.toNat from by omega]
      · rw [hab] at h1
        simp at h1
        rw [hbc] at h2
        simp at h2
        have hrec := listCharLe_trans as bs cs h1 h2
        simp [show ¬ (a.toNat < c.toNat) from by omega,
          show ¬ (c.toNat < a.toNat) from by omega, hrec]
      · simp [show ¬ (b.toNat < c.toNat) from by omega, hbc] at h2
    · simp [show ¬ (a.toNat < b.toNat) from by omega, hab] at h1

/-- Totality of `strLe`. -/
theorem strLe_total (a b : String) : strLe a b = true ∨ strLe b a = true :=
  listCharLe_total a.data b.data

/-- Transitivity of `strLe`. -/
theorem strLe_trans {a b c : String} (h1 : strLe a b = true) (h2 : strLe b c = true) :
    strLe a c = true :=
  listCharLe_trans a.data b.data c.data h1 h2

/-- Sorting a log's already-sorted entries again changes nothing. -/
theorem sortEntriesOfLog_idem (log : ParsedLog) :
    sortEntriesOfLog (sortEntriesOfLog log) = sortEntriesOfLog log := by
  haveI : IsTotal LogEntry entryLe := ⟨fun a b => strLe_total _ _⟩
  haveI : IsTrans LogEntry entryLe := ⟨fun _ _ _ => strLe_trans⟩
  show { log with entries :=
      List.insertionSort entryLe (List.insertionSort entryLe log.entries) }
    = { log with entries := List.insertionSort entryLe log.entries }
  rw [List.Sorted.insertionSort_eq (List.sorted_insertionSort entryLe log.entries)]

/-- The preprocessing (log sort + per-log entry sort) is idempotent: the sort
is stable and the second pass sees already-sorted data. -/
theorem preprocessLogs_idem (dateVal : String → Int) (logs : List ParsedLog) :
    preprocessLogs dateVal (preprocessLogs dateVal logs) = preprocessLogs dateVal logs := by
  haveI : IsTotal ParsedLog (logLe dateVal) := ⟨fun a b => Int.le_total _ _⟩
  haveI : IsTrans ParsedLog (logLe dateVal) := ⟨fun _ _ _ => Int.le_trans⟩
  unfold preprocessLogs
  have hsorted : ((List.insertionSort (logLe dateVal) logs).map sortEntriesOfLog).Sorted
      (logLe dateVal) := by
    rw [List.Sorted, List.pairwise_map]
    exact (List.sorted_insertionSort (logLe dateVal) logs).imp (fun h => h)
  rw [List.Sorted.insertionSort_eq hsorted, List.map_map]
  exact List.map_congr_left (fun a _ => sortEntriesOfLog_idem a)

/-- Claim C6 (amended): `analyzeDriverLogs` sorts the logs ascending by the
(host) calendar-date valuation of `logDate` and stably sorts each log's
entries ascending by the key `time || "00:00"` before any check runs; an
entry with empty time is compared as "00:00", so it ties with a literal
"00:00" time (input order kept) rather than always sorting first. -/
theorem analyzeDriverLogs_sort_spec (dateVal : String → Int) (logs : List ParsedLog) :
    ((analyzeDriverLogs dateVal logs).parsedLogs).Sorted (logLe dateVal)
      ∧ ((analyzeDriverLogs dateVal logs).parsedLogs).Perm (logs.map sortEntriesOfLog)
      ∧ (∀ log ∈ (analyzeDriverLogs dateVal logs).parsedLogs, log.entries.Sorted entryLe)
      ∧ (∀ log : ParsedLog, ((sortEntriesOfLog log).entries).Perm log.entries) := by
  haveI : IsTotal ParsedLog (logLe dateVal) := ⟨fun a b => Int.le_total _ _⟩
  haveI : IsTrans ParsedLog (logLe dateVal) := ⟨fun _ _ _ => Int.le_trans⟩
  haveI : IsTotal LogEntry entryLe := ⟨fun a b => strLe_total _ _⟩
  haveI : IsTrans LogEntry entryLe := ⟨fun _ _ _ => strLe_trans⟩
  have hp : (analyzeDriverLogs dateVal logs).parsedLogs
      = (List.insertionSort (logLe dateVal) logs).map sortEntriesOfLog := rfl
  refine ⟨?_, ?_, ?_, ?_⟩
  · rw [hp, List.Sorted, List.pairwise_map]
    exact (List.sorted_insertionSort (logLe dateVal) logs).imp (fun h => h)
  · rw [hp]
    exact (List.perm_insertionSort _ _).map _
  · intro log hlog
    rw [hp] at hlog
    simp only [List.mem_map] at hlog
    obtain ⟨x, -, rfl⟩ := hlog
    show (List.insertionSort entryLe x.entries).Sorted entryLe
    exact List.sorted_insertionSort _ _
  · intro log
    exact List.perm_insertionSort _ _

/-- Claim C6 (counterexample to the claim as stated): on a log whose entries
carry times "00:00" and "" in this order, the engine leaves the order
unchanged — the empty-time entry does NOT sort first, refuting "entries whose
time is empty sorting first". -/
theorem emptyTime_entry_not_sorted_first :
    ((analyzeDriverLogs (fun _ => 0) [emptyTimeLog]).parsedLogs.map
        (fun l => l.entries.map (fun e => e.time))) = [["00:00", ""]] := by decide

/-- Claim C8: re-running `analyzeDriverLogs` on the previous run's (sorted)
`parsedLogs` yields the same report — in particular an identical violations
list (category, severity, date, time, description and details, in the same
order); the random `id` and wall-clock `generatedAt` are outside the model. -/
theorem analyzeDriverLogs_roundtrip (dateVal : String → Int) (logs : List ParsedLog) :
    analyzeDriverLogs dateVal ((analyzeDriverLogs dateVal logs).parsedLogs)
      = analyzeDriverLogs dateVal logs := by
  have hp : (analyzeDriverLogs dateVal logs).parsedLogs = preprocessLogs dateVal logs := rfl
  rw [hp]
  show buildReport dateVal (preprocessLogs dateVal (preprocessLogs dateVal logs))
      = buildReport dateVal (preprocessLogs dateVal logs)
  rw [preprocessLogs_idem]

/-- Claim C9: on an empty batch `analyzeDriverLogs` returns a report with zero
total violations, an empty violations list, every category count zero, zero
summary totals, and an "Unknown"/"Unknown" date range. -/
theorem analyzeDriverLogs_empty_spec (dateVal : String → Int) :
    (analyzeDriverLogs dateVal []).totalViolations = 0
      ∧ (analyzeDriverLogs dateVal []).violations = []
      ∧ (∀ c : ViolationCategory, (analyzeDriverLogs dateVal []).violationsByCategory c = 0)
      ∧ (analyzeDriverLogs dateVal []).summary.totalEntries = 0
      ∧ (analyzeDriverLogs dateVal []).summary.totalDrivingMinutes = 0
      ∧ (analyzeDriverLogs dateVal []).summary.dateRangeStart = "Unknown"
      ∧ (analyzeDriverLogs dateVal []).summary.dateRangeEnd = "Unknown" :=
  ⟨rfl, rfl, fun _ => rfl, rfl, rfl, rfl, rfl⟩

/-- Unrolling the category-count fold over an arbitrary accumulator. -/
theorem countByCategory_go (vs : List Violation) (acc : ViolationCategory → Nat)
    (c : ViolationCategory) :
    List.foldl (fun a v => fun c2 => if c2 = v.category then a c2 + 1 else a c2) acc vs c
      = acc c + vs.countP (fun v => v.category = c) := by
  induction vs generalizing acc with
  | nil => simp
  | cons v vs ih =>
    rw [List.foldl_cons, ih, List.countP_cons]
    by_cases hvc : v.category = c
    · simp [hvc]
      omega
    · have hcv : ¬ (c = v.category) := fun h => hvc h.symm
      simp [hvc, hcv]

/-- The category-count map counts the violations of each category. -/
theorem countByCategory_eq (vs : List Violation) (c : ViolationCategory) :
    countByCategory vs c = vs.countP (fun v => v.category = c) := by
  unfold countByCategory
  rw [countByCategory_go]
  omega

/-- Sums of pointwise sums of `Nat`-valued maps split. -/
theorem sum_map_add {α : Type} (l : List α) (f g : α → Nat) :
    (l.map (fun a => f a + g a)).sum = (l.map f).sum + (l.map g).sum := by
  induction l with
  | nil => rfl
  | cons a l ih =>
    simp only [List.map_cons, List.sum_cons, ih]
    omega

/-- Each category matches exactly one entry of `allCategories`. -/
theorem sum_one_category (c : ViolationCategory) :
    (allCategories.map (fun c2 => if c = c2 then 1 else 0)).sum = 1 := by
  cases c <;> decide

/-- Summing the per-category counts over all 7 categories counts every
violation exactly once. -/
theorem sum_countP_categories (vs : List Violation) :
    (allCategories.map (fun c => vs.countP (fun v => v.category = c))).sum = vs.length := by
  induction vs with
  | nil => simp
  | cons v vs ih =>
    simp only [List.countP_cons, decide_eq_true_eq]
    rw [sum_map_add allCategories (fun c => vs.countP (fun v2 => v2.category = c))
      (fun c => if v.category = c then 1 else 0), ih, sum_one_category]
    simp

/-- Claim C5: in every report, `violationsByCategory` is total over the 7
fixed categories (a distinct, exhaustive key list) and its values sum to
`totalViolations`, which equals the length of the violations list. -/
theorem analyzeDriverLogs_category_counts (dateVal : String → Int) (logs : List ParsedLog) :
    ((allCategories.map ((analyzeDriverLogs dateVal logs).violationsByCategory)).sum
        = (analyzeDriverLogs dateVal logs).totalViolations)
      ∧ ((analyzeDriverLogs dateVal logs).totalViolations
          = (analyzeDriverLogs dateVal logs).violations.length)
      ∧ allCategories.Nodup ∧ (∀ c : ViolationCategory, c ∈ allCategories) := by
  refine ⟨?_, rfl, by decide, fun c => by cases c <;> decide⟩
  have h1 : (analyzeDriverLogs dateVal logs).violationsByCategory
      = countByCategory ((analyzeDriverLogs dateVal logs).violations) := rfl
  have h2 : (analyzeDriverLogs dateVal logs).totalViolations
      = ((analyzeDriverLogs dateVal logs).violations).length := rfl
  rw [h1, h2]
  have h3 : allCategories.map (countByCategory ((analyzeDriverLogs dateVal logs).violations))
      = allCategories.map (fun c =>
          ((analyzeDriverLogs dateVal logs).violations).countP (fun v => v.category = c)) :=
    List.map_congr_left (fun c _ => countByCategory_eq _ c)
  rw [h3, sum_countP_categories]

/-- The claim-side odometer-jump violation always has the right category and
is never Minor. -/
theorem mkOdometerJumpViolation_fields (entries : List LogEntry) (i : Nat) :
    (mkOdometerJumpViolation entries i).category = ViolationCategory.OdometerJump
      ∧ (mkOdometerJumpViolation entries i).severity ≠ Severity.Minor := by
  refine ⟨rfl, ?_⟩
  unfold mkOdometerJumpViolation
  dsimp only
  split <;> simp

/-- Category and severity of every `checkOdometerJump` violation. -/
theorem checkOdometerJump_mem {entries : List LogEntry} {v : Violation}
    (h : v ∈ checkOdometerJump entries) :
    v.category = ViolationCategory.OdometerJump ∧ v.severity ≠ Severity.Minor := by
  unfold checkOdometerJump at h
  simp only [List.mem_filterMap, List.mem_range] at h
  obtain ⟨i, -, hstep⟩ := h
  rw [odometerJumpStep_eq] at hstep
  by_cases hf : odometerJumpFires entries i = true
  · rw [if_pos hf] at hstep
    obtain rfl := Option.some.inj hstep
    exact mkOdometerJumpViolation_fields entries i
  · rw [if_neg hf] at hstep
    exact absurd hstep (by simp)

/-- Category and severity of every `checkLocationChange` violation. -/
theorem checkLocationChange_mem {entries : List LogEntry} {v : Violation}
    (h : v ∈ checkLocationChange entries) :
    v.category = ViolationCategory.LocationChangeWithoutDriving
      ∧ v.severity = Severity.Major := by
  unfold checkLocationChange at h
  simp only [List.mem_filterMap, List.mem_range] at h
  obtain ⟨i, -, hstep⟩ := h
  unfold locationChangeStep at hstep
  repeat' split at hstep
  all_goals first
    | (obtain rfl := Option.some.inj hstep; exact ⟨rfl, rfl⟩)
    | exact absurd hstep (by simp)

/-- Category and severity of every `checkStationaryWhileDriving` violation. -/
theorem checkStationaryWhileDriving_mem {entries : List LogEntry} {v : Violation}
    (h : v ∈ checkStationaryWhileDriving entries) :
    v.category = ViolationCategory.StationaryWhileDriving ∧ v.severity = Severity.Major := by
  unfold checkStationaryWhileDriving at h
  simp only [List.mem_filterMap, List.mem_range] at h
  obtain ⟨i, -, hstep⟩ := h
  rw [stationaryStep_eq] at hstep
  by_cases hf : stationaryFires entries i = true
  · rw [if_pos hf] at hstep
    obtain rfl := Option.some.inj hstep
    exact ⟨rfl, rfl⟩
  · rw [if_neg hf] at hstep
    exact absurd hstep (by simp)

/-- Category and severity of every `checkDrivingHoursExceeded` violation. -/
theorem checkDrivingHoursExceeded_mem {log : ParsedLog} {v : Violation}
    (h : v ∈ checkDrivingHoursExceeded log) :
    v.category = ViolationCategory.DrivingHoursExceeded ∧ v.severity = Severity.Critical := by
  unfold checkDrivingHoursExceeded at h
  simp only [List.mem_filterMap] at h
  obtain ⟨x, -, hx⟩ := h
  by_cases hP : maxDrivingHours log * 60 < sumDrivingMinutesOnDate log.entries x
  · rw [if_pos hP] at hx
    obtain rfl := Option.some.inj hx
    exact ⟨rfl, rfl⟩
  · rw [if_neg hP] at hx
    exact absurd hx (by simp)

/-- Category and severity of every `checkOdometerAtDateChange` violation. -/
theorem checkOdometerAtDateChange_mem {dateVal : String → Int} {entries : List LogEntry}
    {v : Violation} (h : v ∈ checkOdometerAtDateChange dateVal entries) :
    v.category = ViolationCategory.OdometerMismatchDateChange
      ∧ v.severity = Severity.Major := by
  unfold checkOdometerAtDateChange at h
  simp only [List.mem_filterMap] at h
  obtain ⟨pair, -, hstep⟩ := h
  rw [dateChangeStep_eq] at hstep
  by_cases hf : dateChangeFires entries pair = true
  · rw [if_pos hf] at hstep
    obtain rfl := Option.some.inj hstep
    exact ⟨rfl, rfl⟩
  · rw [if_neg hf] at hstep
    exact absurd hstep (by simp)

/-- Category and severity of every `checkUnidentifiedDrivingEvents` violation. -/
theorem checkUnidentifiedDrivingEvents_mem {log : ParsedLog} {v : Violation}
    (h : v ∈ checkUnidentifiedDrivingEvents log) :
    v.category = ViolationCategory.UnidentifiedDrivingEvent
      ∧ v.severity = Severity.Critical := by
  unfold checkUnidentifiedDrivingEvents at h
  split at h
  · simp only [List.mem_filterMap] at h
    obtain ⟨event, -, hx⟩ := h
    split at hx
    · obtain rfl := Option.some.inj hx
      exact ⟨rfl, rfl⟩
    · exact absurd hx (by simp)
  · exact absurd h (by simp)

/-- Category and severity of every `checkNotesAndRemarks` violation. -/
theorem checkNotesAndRemarks_mem {entries : List LogEntry} {v : Violation}
    (h : v ∈ checkNotesAndRemarks entries) :
    v.category = ViolationCategory.NotesRemarksPresent ∧ v.severity = Severity.Minor := by
  unfold checkNotesAndRemarks at h
  simp only [List.mem_filterMap] at h
  obtain ⟨entry, -, hx⟩ := h
  split at hx
  · obtain rfl := Option.some.inj hx
    exact ⟨rfl, rfl⟩
  · exact absurd hx (by simp)

/-- Claim C10: every violation the engine produces has the severity its
category dictates — Driving Hours Exceeded and Unidentified Driving Event are
Critical; Location Change Without Driving, Stationary While Driving and
Odometer Mismatch (Date Change) are Major; Notes/Remarks Present is Minor;
Odometer Jump is Critical or Major, never Minor. -/
theorem violation_severity_by_category (dateVal : String → Int) (logs : List ParsedLog)
    (v : Violation) (hv : v ∈ (analyzeDriverLogs dateVal logs).violations) :
    (v.category = ViolationCategory.DrivingHoursExceeded → v.severity = Severity.Critical)
      ∧ (v.category = ViolationCategory.UnidentifiedDrivingEvent → v.severity = Severity.Critical)
      ∧ (v.category = ViolationCategory.LocationChangeWithoutDriving → v.severity = Severity.Major)
      ∧ (v.category = ViolationCategory.StationaryWhileDriving → v.severity = Severity.Major)
      ∧ (v.category = ViolationCategory.OdometerMismatchDateChange → v.severity = Severity.Major)
      ∧ (v.category = ViolationCategory.NotesRemarksPresent → v.severity = Severity.Minor)
      ∧ (v.category = ViolationCategory.OdometerJump → v.severity ≠ Severity.Minor) := by
  have hv2 : ∃ log, v ∈ runChecks dateVal log := by
    have hrep : (analyzeDriverLogs dateVal logs).violations
        = ((preprocessLogs dateVal logs).map (runChecks dateVal)).flatten := rfl
    rw [hrep] at hv
    simp only [List.mem_flatten, List.mem_map] at hv
    obtain ⟨l, ⟨log, -, rfl⟩, hvl⟩ := hv
    exact ⟨log, hvl⟩
  obtain ⟨log, hvr⟩ := hv2
  unfold runChecks at hvr
  simp only [List.mem_append] at hvr
  rcases hvr with ((((((h | h) | h) | h) | h) | h) | h)
  · obtain ⟨hc, hs⟩ := checkOdometerJump_mem h
    refine ⟨?_, ?_, ?_, ?_, ?_, ?_, ?_⟩ <;> intro hcat <;> simp_all
  · obtain ⟨hc, hs⟩ := checkLocationChange_mem h
    refine ⟨?_, ?_, ?_, ?_, ?_, ?_, ?_⟩ <;> intro hcat <;> simp_all
  · obtain ⟨hc, hs⟩ := checkStationaryWhileDriving_mem h
    refine ⟨?_, ?_, ?_, ?_, ?_, ?_, ?_⟩ <;> intro hcat <;> simp_all
  · obtain ⟨hc, hs⟩ := checkDrivingHoursExceeded_mem h
    refine ⟨?_, ?_, ?_, ?_, ?_, ?_, ?_⟩ <;> intro hcat <;> simp_all
  · obtain ⟨hc, hs⟩ := checkOdometerAtDateChange_mem h
    refine ⟨?_, ?_, ?_, ?_, ?_, ?_, ?_⟩ <;> intro hcat <;> simp_all
  · obtain ⟨hc, hs⟩ := checkUnidentifiedDrivingEvents_mem h
    refine ⟨?_, ?_, ?_, ?_, ?_, ?_, ?_⟩ <;> intro hcat <;> simp_all
  · obtain ⟨hc, hs⟩ := checkNotesAndRemarks_mem h
    refine ⟨?_, ?_, ?_, ?_, ?_, ?_, ?_⟩ <;> intro hcat <;> simp_all

/-- Witness for C10: the severity/category law instantiated at a concrete
one-entry log whose notes produce a violation. -/
theorem violation_severity_by_category_witness :
    (notesViolation.category = ViolationCategory.DrivingHoursExceeded →
        notesViolation.severity = Severity.Critical)
      ∧ (notesViolation.category = ViolationCategory.UnidentifiedDrivingEvent →
          notesViolation.severity = Severity.Critical)
      ∧ (notesViolation.category = ViolationCategory.LocationChangeWithoutDriving →
          notesViolation.severity = Severity.Major)
      ∧ (notesViolation.category = ViolationCategory.StationaryWhileDriving →
          notesViolation.severity = Severity.Major)
      ∧ (notesViolation.category = ViolationCategory.OdometerMismatchDateChange →
          notesViolation.severity = Severity.Major)
      ∧ (notesViolation.category = ViolationCategory.NotesRemarksPresent →
          notesViolation.severity = Severity.Minor)
      ∧ (notesViolation.category = ViolationCategory.OdometerJump →
          notesViolation.severity ≠ Severity.Minor) :=
  violation_severity_by_category (fun _ => 0) [notesLog] notesViolation (by decide)

/-- Claim C3: `parseDurationToMinutes` is a total function into the
non-negative integers, applying the `H:MM` pattern first (seconds ignored),
else `Nh Mm`, else `N min`, else 0 — witnessed on the spec's examples and on
inputs matched by several patterns at once. -/
theorem parseDurationToMinutes_spec :
    (∀ s : String, 0 ≤ parseDurationToMinutes s)
      ∧ parseDurationToMinutes "1:30" = 90
      ∧ parseDurationToMinutes "1h 30m" = 90
      ∧ parseDurationToMinutes "90 min" = 90
      ∧ parseDurationToMinutes "" = 0
      ∧ parseDurationToMinutes "01:30:00" = 90
      ∧ parseDurationToMinutes "1:30 min" = 90
      ∧ parseDurationToMinutes "2h 5 min" = 125
      ∧ parseDurationToMinutes "totally garbage text" = 0 :=
  ⟨fun _ => Nat.zero_le _, by decide, by decide, by decide, by decide, by decide, by decide,
    by decide, by decide⟩

end DriveWise
